import Mathlib

/-!
Shallow embedding of the ingestion-and-aggregation pipeline of the
abt-analytics-dashboard backend (`internal/processor/processor.go` and
`internal/models/models.go`), together with proofs deciding the frozen
claims about its specification.

Modelling conventions:
* Go `float64` amounts (price, total_price, revenue) are modelled as `ℚ`;
  none of the claims depends on floating-point rounding.
* Go `int` fields are modelled as `ℤ`; overflow is immaterial at the
  magnitudes reachable in one run.
* Go maps are modelled as association lists with unique keys
  (`updAssoc` mirrors the check-then-insert-or-update idiom).
* `strconv.ParseFloat` / `strconv.Atoi` are modelled on their decimal
  fragment (optional sign, digits, optional fractional part); the claims
  use them only as black boxes ("parses" / "fails to parse").
* `time.Parse` is modelled for exactly the five layouts the code tries,
  including Go's fixed-width digit rules and calendar validation.
-/

namespace ABT

/-- Model of `strings.TrimSpace`: drop whitespace from both ends
(defined on the character list so that it evaluates by kernel
reduction). -/
def goTrim (s : String) : String :=
  String.mk
    (((s.toList.dropWhile Char.isWhitespace).reverse.dropWhile
        Char.isWhitespace).reverse)

/-- Model of `strings.ToLower` (ASCII case folding suffices for the
header names the code looks up). -/
def goToLower (s : String) : String :=
  String.mk (s.toList.map Char.toLower)

/-- Model of Go `time.Time` restricted to the fields the code observes.
The zero value of `time.Time` is January 1, year 1, 00:00:00. -/
structure GoDate where
  year : Nat
  month : Nat
  day : Nat
  hour : Nat
  minute : Nat
  second : Nat
deriving DecidableEq, Repr

/-- The zero value of Go `time.Time`: year 1, January 1. -/
def zeroDate : GoDate := ⟨1, 1, 1, 0, 0, 0⟩

/-- Go leap-year rule (`isLeap` in the `time` package). -/
def isLeap (y : Nat) : Bool :=
  y % 4 == 0 && (y % 100 != 0 || y % 400 == 0)

/-- Days in a month, as validated by Go `time.Parse`. -/
def daysInMonth (y m : Nat) : Nat :=
  if m = 2 then (if isLeap y then 29 else 28)
  else if m = 4 ∨ m = 6 ∨ m = 9 ∨ m = 11 then 30
  else 31

/-- Read exactly `n` decimal digits (Go fixed-width `getnum`). -/
def readFixed : Nat → Nat → List Char → Option (Nat × List Char)
  | 0, acc, cs => some (acc, cs)
  | _ + 1, _, [] => none
  | n + 1, acc, c :: cs =>
      if c.isDigit then readFixed n (acc * 10 + (c.toNat - 48)) cs else none

/-- Read one or two decimal digits (Go non-fixed `getnum`, used for the
hour in layout `15:04:05`). -/
def readNum1or2 : List Char → Option (Nat × List Char)
  | [] => none
  | [c] => if c.isDigit then some (c.toNat - 48, []) else none
  | c :: d :: cs =>
      if c.isDigit then
        if d.isDigit then some ((c.toNat - 48) * 10 + (d.toNat - 48), cs)
        else some (c.toNat - 48, d :: cs)
      else none

/-- Consume one expected literal character. -/
def expectChar (ch : Char) : List Char → Option (List Char)
  | [] => none
  | c :: cs => if c = ch then some cs else none

/-- Calendar validation performed by Go `time.Parse`. -/
def validYMD (y m d : Nat) : Bool :=
  1 ≤ m && m ≤ 12 && 1 ≤ d && d ≤ daysInMonth y m

/-- Layout `2006-01-02` with separator `sep` (also covers `2006/01/02`). -/
def parseYMD (sep : Char) (s : String) : Option GoDate := do
  let (y, r1) ← readFixed 4 0 s.toList
  let r2 ← expectChar sep r1
  let (m, r3) ← readFixed 2 0 r2
  let r4 ← expectChar sep r3
  let (d, r5) ← readFixed 2 0 r4
  if r5.isEmpty && validYMD y m d then some ⟨y, m, d, 0, 0, 0⟩ else none

/-- Layout `2006-01-02 15:04:05`. -/
def parseYMDHMS (s : String) : Option GoDate := do
  let (y, r1) ← readFixed 4 0 s.toList
  let r2 ← expectChar '-' r1
  let (m, r3) ← readFixed 2 0 r2
  let r4 ← expectChar '-' r3
  let (d, r5) ← readFixed 2 0 r4
  let r6 ← expectChar ' ' r5
  let (hh, r7) ← readNum1or2 r6
  let r8 ← expectChar ':' r7
  let (mi, r9) ← readFixed 2 0 r8
  let r10 ← expectChar ':' r9
  let (ss, r11) ← readFixed 2 0 r10
  if r11.isEmpty && validYMD y m d && hh ≤ 23 && mi ≤ 59 && ss ≤ 59 then
    some ⟨y, m, d, hh, mi, ss⟩
  else none

/-- Layout `01/02/2006` with separator `sep` (also covers `01-02-2006`). -/
def parseMDY (sep : Char) (s : String) : Option GoDate := do
  let (m, r1) ← readFixed 2 0 s.toList
  let r2 ← expectChar sep r1
  let (d, r3) ← readFixed 2 0 r2
  let r4 ← expectChar sep r3
  let (y, r5) ← readFixed 4 0 r4
  if r5.isEmpty && validYMD y m d then some ⟨y, m, d, 0, 0, 0⟩ else none

/-- The five layout strings tried by `parseTransaction`, in source order. -/
inductive DateFormat where
  | ymdDash
  | ymdDashHMS
  | mdySlash
  | mdyDash
  | ymdSlash
deriving DecidableEq, Repr

/-- `time.Parse(format, s)` for the five layouts used by the code. -/
def goTimeParse : DateFormat → String → Option GoDate
  | .ymdDash, s => parseYMD '-' s
  | .ymdDashHMS, s => parseYMDHMS s
  | .mdySlash, s => parseMDY '/' s
  | .mdyDash, s => parseMDY '-' s
  | .ymdSlash, s => parseYMD '/' s

/-- The ordered format list from `parseTransaction`
(`2006-01-02`, `2006-01-02 15:04:05`, `01/02/2006`, `01-02-2006`, `2006/01/02`). -/
def goFormats : List DateFormat :=
  [.ymdDash, .ymdDashHMS, .mdySlash, .mdyDash, .ymdSlash]

/-- The `for … { if ok { assign; break } }` loop over date formats:
first successful parse is assigned, otherwise the field keeps `dflt`. -/
def goTryFormats : List DateFormat → String → GoDate → GoDate
  | [], _, dflt => dflt
  | f :: fs, s, dflt =>
      match goTimeParse f s with
      | some d => d
      | none => goTryFormats fs s dflt

/-- Value of a nonempty all-digit character list, if it is one. -/
def digitsVal : List Char → Nat → Option Nat
  | [], acc => some acc
  | c :: cs, acc =>
      if c.isDigit then digitsVal cs (acc * 10 + (c.toNat - 48)) else none

/-- Model of `strconv.Atoi` (decimal integers with optional sign). -/
def goAtoi (s : String) : Option Int :=
  match s.toList with
  | [] => none
  | '+' :: cs => if cs.isEmpty then none else (digitsVal cs 0).map Int.ofNat
  | '-' :: cs =>
      if cs.isEmpty then none else (digitsVal cs 0).map (fun n => -(n : Int))
  | cs => (digitsVal cs 0).map Int.ofNat

/-- Fractional digits: value over 10 ^ length. -/
def fracVal : List Char → Option ℚ
  | [] => some 0
  | c :: cs =>
      if c.isDigit then
        (fracVal cs).map (fun q => ((c.toNat - 48 : Nat) + q) / 10)
      else none

/-- Model of `strconv.ParseFloat` on its decimal fragment:
optional sign, integer digits, optional `.` and fraction digits,
at least one digit overall. -/
def goParseFloat (s : String) : Option ℚ :=
  let core : List Char → Option ℚ := fun cs =>
    let intPart := cs.takeWhile Char.isDigit
    let rest := cs.dropWhile Char.isDigit
    match rest with
    | [] => if intPart.isEmpty then none
            else (digitsVal intPart 0).map (fun n => (n : ℚ))
    | '.' :: fracCs =>
        if intPart.isEmpty && fracCs.isEmpty then none
        else match digitsVal intPart 0, fracVal fracCs with
          | some n, some q => some ((n : ℚ) + q)
          | _, _ => none
    | _ => none
  match s.toList with
  | '+' :: cs => core cs
  | '-' :: cs => (core cs).map Neg.neg
  | cs => core cs

/-- Model of the `models.Transaction` struct; field defaults are the Go
zero values. -/
structure Transaction where
  transactionID : String := ""
  userID : String := ""
  productID : String := ""
  productName : String := ""
  category : String := ""
  country : String := ""
  region : String := ""
  price : ℚ := 0
  totalPrice : ℚ := 0
  quantity : Int := 0
  stockQuantity : Int := 0
  transactionDate : GoDate := zeroDate
  addedDate : GoDate := zeroDate
deriving DecidableEq, Repr

/-- Go `map[string]int` header map, as an association list. -/
def HeaderMap := List (String × Nat)

/-- Association-list lookup (Go map read). -/
def alookup {β : Type} : List (String × β) → String → Option β
  | [], _ => none
  | (k, v) :: rest, key => if k = key then some v else alookup rest key

/-- The access pattern `if idx, ok := headerMap[name]; ok && idx < len(record)`
followed by `strings.TrimSpace(record[idx])`: yields the trimmed cell, or
`none` when the column is missing from the header map or the index is past
the end of the row. -/
def getCell (hm : HeaderMap) (record : List String) (name : String) :
    Option String :=
  match alookup hm name with
  | some i => (record.get? i).map goTrim
  | none => none

/-- `parseTransaction` from `processor.go`: builds a `Transaction` from a
raw record and the header map; always returns `nil` error. -/
def parseTransaction (record : List String) (headerMap : HeaderMap) :
    Except String Transaction :=
  Except.ok
    { transactionID := (getCell headerMap record "transaction_id").getD ""
      userID := (getCell headerMap record "user_id").getD ""
      productID := (getCell headerMap record "product_id").getD ""
      productName := (getCell headerMap record "product_name").getD ""
      category := (getCell headerMap record "category").getD ""
      country := (getCell headerMap record "country").getD ""
      region := (getCell headerMap record "region").getD ""
      price := ((getCell headerMap record "price").bind goParseFloat).getD 0
      totalPrice :=
        ((getCell headerMap record "total_price").bind goParseFloat).getD 0
      quantity := ((getCell headerMap record "quantity").bind goAtoi).getD 0
      stockQuantity :=
        ((getCell headerMap record "stock_quantity").bind goAtoi).getD 0
      transactionDate :=
        match getCell headerMap record "transaction_date" with
        | some s => goTryFormats goFormats s zeroDate
        | none => zeroDate
      addedDate :=
        match getCell headerMap record "added_date" with
        | some s => goTryFormats goFormats s zeroDate
        | none => zeroDate }

/-- `models.CountryRevenue`. -/
structure CountryRevenue where
  country : String
  productName : String
  totalRevenue : ℚ
  transactionCount : Int
deriving DecidableEq, Repr

/-- `models.ProductFrequency`. -/
structure ProductFrequency where
  productName : String
  purchaseCount : Int
  currentStock : Int
deriving DecidableEq, Repr

/-- `models.MonthlySales`. -/
structure MonthlySales where
  month : String
  year : Nat
  totalSales : ℚ
  salesVolume : Int
deriving DecidableEq, Repr

/-- `models.RegionRevenue`. -/
structure RegionRevenue where
  region : String
  totalRevenue : ℚ
  itemsSold : Int
deriving DecidableEq, Repr

/-- The four aggregation maps built by one run of `ProcessDataset`. -/
structure AggState where
  countryMap : List (String × CountryRevenue)
  productMap : List (String × ProductFrequency)
  monthMap : List (String × MonthlySales)
  regionMap : List (String × RegionRevenue)
deriving DecidableEq, Repr

/-- The Go-map idiom `if v, exists := m[k]; exists { m[k] = upd v } else
{ m[k] = ini }` on an association list with unique keys. -/
def updAssoc {β : Type} (m : List (String × β)) (k : String) (upd : β → β)
    (ini : β) : List (String × β) :=
  match m with
  | [] => [(k, ini)]
  | (k0, v) :: rest =>
      if k0 = k then (k0, upd v) :: rest
      else (k0, v) :: updAssoc rest k upd ini

/-- `fmt.Sprintf("%s-%s", transaction.Country, transaction.ProductName)`. -/
def countryKey (t : Transaction) : String :=
  t.country ++ "-" ++ t.productName

/-- Go `Month.String()` for the month numbers reachable from parsing. -/
def monthName (m : Nat) : String :=
  match m with
  | 1 => "January" | 2 => "February" | 3 => "March" | 4 => "April"
  | 5 => "May" | 6 => "June" | 7 => "July" | 8 => "August"
  | 9 => "September" | 10 => "October" | 11 => "November" | 12 => "December"
  | _ => "%!Month(" ++ toString m ++ ")"

/-- `%02d` for a nonnegative value. -/
def pad2 (n : Nat) : String :=
  if n < 10 then "0" ++ toString n else toString n

/-- `fmt.Sprintf("%d-%02d", date.Year(), date.Month())`. -/
def monthKey (d : GoDate) : String :=
  toString d.year ++ "-" ++ pad2 d.month

/-- The per-record body of `aggregateWorker`: one transaction updates the
four maps inside one critical section. -/
def stepTransaction (st : AggState) (t : Transaction) : AggState :=
  { countryMap :=
      updAssoc st.countryMap (countryKey t)
        (fun cr =>
          { cr with
            totalRevenue := cr.totalRevenue + t.totalPrice
            transactionCount := cr.transactionCount + 1 })
        { country := t.country, productName := t.productName
          totalRevenue := t.totalPrice, transactionCount := 1 }
    productMap :=
      updAssoc st.productMap t.productName
        (fun pf =>
          { pf with
            purchaseCount := pf.purchaseCount + 1
            currentStock :=
              if t.stockQuantity > 0 then t.stockQuantity
              else pf.currentStock })
        { productName := t.productName, purchaseCount := 1
          currentStock := t.stockQuantity }
    monthMap :=
      updAssoc st.monthMap (monthKey t.transactionDate)
        (fun ms =>
          { ms with
            totalSales := ms.totalSales + t.totalPrice
            salesVolume := ms.salesVolume + t.quantity })
        { month := monthName t.transactionDate.month
          year := t.transactionDate.year
          totalSales := t.totalPrice, salesVolume := t.quantity }
    regionMap :=
      updAssoc st.regionMap t.region
        (fun rr =>
          { rr with
            totalRevenue := rr.totalRevenue + t.totalPrice
            itemsSold := rr.itemsSold + t.quantity })
        { region := t.region, totalRevenue := t.totalPrice
          itemsSold := t.quantity } }

/-- Empty aggregation maps at the start of a run. -/
def emptyAgg : AggState := ⟨[], [], [], []⟩

/-- Net effect of the worker pool on the shared maps: every record of the
run is folded in exactly once, in processing order. -/
def aggregate (ts : List Transaction) : AggState :=
  ts.foldl stepTransaction emptyAgg

/-- Comparator postcondition of `sortCountryRevenues` / `sortTopRegions`:
`TotalRevenue` descending. -/
def crGE (a b : CountryRevenue) : Prop := b.totalRevenue ≤ a.totalRevenue

instance : DecidableRel crGE := fun a b =>
  inferInstanceAs (Decidable (b.totalRevenue ≤ a.totalRevenue))

instance : IsTotal CountryRevenue crGE :=
  ⟨fun a b => le_total b.totalRevenue a.totalRevenue⟩

instance : IsTrans CountryRevenue crGE :=
  ⟨fun _ _ _ hab hbc => le_trans hbc hab⟩

/-- `PurchaseCount` descending, for `sortTopProducts`. -/
def pfGE (a b : ProductFrequency) : Prop := b.purchaseCount ≤ a.purchaseCount

instance : DecidableRel pfGE := fun a b =>
  inferInstanceAs (Decidable (b.purchaseCount ≤ a.purchaseCount))

instance : IsTotal ProductFrequency pfGE :=
  ⟨fun a b => le_total b.purchaseCount a.purchaseCount⟩

instance : IsTrans ProductFrequency pfGE :=
  ⟨fun _ _ _ hab hbc => le_trans hbc hab⟩

/-- `Year` descending, then `TotalSales` descending, for
`sortMonthlySales`. -/
def msGE (a b : MonthlySales) : Prop :=
  b.year < a.year ∨ (a.year = b.year ∧ b.totalSales ≤ a.totalSales)

instance : DecidableRel msGE := fun a b =>
  inferInstanceAs
    (Decidable (b.year < a.year ∨ (a.year = b.year ∧ b.totalSales ≤ a.totalSales)))

instance : IsTotal MonthlySales msGE := by
  constructor
  intro a b
  rcases Nat.lt_trichotomy b.year a.year with h | h | h
  · exact Or.inl (Or.inl h)
  · rcases le_total b.totalSales a.totalSales with hs | hs
    · exact Or.inl (Or.inr ⟨h.symm, hs⟩)
    · exact Or.inr (Or.inr ⟨h, hs⟩)
  · exact Or.inr (Or.inl h)

instance : IsTrans MonthlySales msGE := by
  constructor
  intro a b c hab hbc
  rcases hab with h1 | ⟨h1, h1s⟩
  · rcases hbc with h2 | ⟨h2, _⟩
    · exact Or.inl (lt_trans h2 h1)
    · exact Or.inl (h2 ▸ h1)
  · rcases hbc with h2 | ⟨h2, h2s⟩
    · exact Or.inl (h1 ▸ h2)
    · exact Or.inr ⟨h1.trans h2, le_trans h2s h1s⟩

/-- `TotalRevenue` descending for regions, for `sortTopRegions`. -/
def rrGE (a b : RegionRevenue) : Prop := b.totalRevenue ≤ a.totalRevenue

instance : DecidableRel rrGE := fun a b =>
  inferInstanceAs (Decidable (b.totalRevenue ≤ a.totalRevenue))

instance : IsTotal RegionRevenue rrGE :=
  ⟨fun a b => le_total b.totalRevenue a.totalRevenue⟩

instance : IsTrans RegionRevenue rrGE :=
  ⟨fun _ _ _ hab hbc => le_trans hbc hab⟩

/-- `sortCountryRevenues`: values of the map, sorted by revenue
descending, no truncation. -/
def sortCountryRevenues (m : List (String × CountryRevenue)) :
    List CountryRevenue :=
  List.insertionSort crGE (m.map Prod.snd)

/-- `sortTopProducts`: sorted by purchase count descending, truncated to
`limit` when longer. -/
def sortTopProducts (m : List (String × ProductFrequency)) (limit : Nat) :
    List ProductFrequency :=
  let products := List.insertionSort pfGE (m.map Prod.snd)
  if limit < products.length then products.take limit else products

/-- `sortMonthlySales`: sorted by year descending then sales descending. -/
def sortMonthlySales (m : List (String × MonthlySales)) : List MonthlySales :=
  List.insertionSort msGE (m.map Prod.snd)

/-- `sortTopRegions`: sorted by revenue descending, truncated to `limit`
when longer. -/
def sortTopRegions (m : List (String × RegionRevenue)) (limit : Nat) :
    List RegionRevenue :=
  let regions := List.insertionSort rrGE (m.map Prod.snd)
  if limit < regions.length then regions.take limit else regions

/-- `models.DashboardData`; the time stamps are opaque instants. -/
structure DashboardData where
  countryRevenues : List CountryRevenue
  topProducts : List ProductFrequency
  monthlySales : List MonthlySales
  topRegions : List RegionRevenue
  lastUpdated : Int
  processingDuration : Int
  recordCount : Nat
deriving DecidableEq, Repr

/-- Outcome of opening the source file and reading its header, the two
fatal-to-run failure points of `ProcessDataset`/`readCSV`: the source
cannot be opened, the header row cannot be read, or the header plus the
data rows are available (`none` rows are rows on which `reader.Read`
failed, which `readCSV` logs and skips). -/
inductive CSVSource where
  | openFail : CSVSource
  | headerFail : CSVSource
  | content : List String → List (Option (List String)) → CSVSource

/-- Header-map construction in `readCSV`:
`headerMap[strings.TrimSpace(strings.ToLower(header))] = i`
(a later duplicate header overwrites an earlier one). -/
def buildHeaderMap (headers : List String) : HeaderMap :=
  headers.enum.foldl
    (fun m p => updAssoc m (goTrim (goToLower p.2)) (fun _ => p.1) p.1) []

/-- Row loop of `readCSV`: skip rows whose read failed, parse the rest
(parsing never fails), emit the transactions in order. -/
def readCSVModel (headers : List String)
    (rows : List (Option (List String))) : List Transaction :=
  let hm := buildHeaderMap headers
  rows.filterMap (fun row =>
    row.bind (fun rec => (parseTransaction rec hm).toOption))

/-- `ProcessDataset`. On an open failure the function returns before any
goroutine is started, so the error is returned and the previously
published dashboard data is untouched.

On a header-read failure, `readCSV` sends the error to the buffered
error channel and its deferred `close(transactionCh)` runs; the workers
then drain nothing and exit, so the done channel also closes. By the
time the main goroutine reaches the `select`, both cases can be ready,
and Go's `select` then picks one uniformly at random. `selectDone`
records that scheduler choice: `false` means the error case won (error
returned, previous data untouched); `true` means the done case won, in
which case control falls through to the publishing code, which installs
a snapshot built from the still-empty aggregation maps and returns nil.

On a successful header read no error is ever sent (row-read failures
are logged and skipped), so only the done case can fire: the four views
are rebuilt from the aggregated records, sorted, truncated and
published together with fresh metadata (`RecordCount` is the number of
country-product groups, per the source). -/
def processDataset (prev : DashboardData) (src : CSVSource)
    (now dur : Int) (selectDone : Bool) :
    Except String Unit × DashboardData :=
  match src with
  | .openFail => (Except.error "failed to open file", prev)
  | .headerFail =>
      if selectDone then
        (Except.ok (),
          { countryRevenues := sortCountryRevenues emptyAgg.countryMap
            topProducts := sortTopProducts emptyAgg.productMap 20
            monthlySales := sortMonthlySales emptyAgg.monthMap
            topRegions := sortTopRegions emptyAgg.regionMap 30
            lastUpdated := now
            processingDuration := dur
            recordCount := emptyAgg.countryMap.length })
      else
        (Except.error "error during processing: failed to read header", prev)
  | .content headers rows =>
      let agg := aggregate (readCSVModel headers rows)
      (Except.ok (),
        { countryRevenues := sortCountryRevenues agg.countryMap
          topProducts := sortTopProducts agg.productMap 20
          monthlySales := sortMonthlySales agg.monthMap
          topRegions := sortTopRegions agg.regionMap 30
          lastUpdated := now
          processingDuration := dur
          recordCount := agg.countryMap.length })

/-! ### Association-list laws for the Go-map idiom -/

theorem alookup_updAssoc {β : Type} (m : List (String × β)) (k : String)
    (upd : β → β) (ini : β) (q : String) :
    alookup (updAssoc m k upd ini) q =
      if q = k then some (((alookup m k).map upd).getD ini)
      else alookup m q := by
  induction m with
  | nil =>
      by_cases h : q = k
      · simp [updAssoc, alookup, h]
      · simp [updAssoc, alookup, h, Ne.symm h]
  | cons hd tl ih =>
      obtain ⟨k0, v⟩ := hd
      by_cases hk : k0 = k
      · subst hk
        by_cases hq : q = k0 <;> simp [updAssoc, alookup, hq, eq_comm]
      · by_cases hq : q = k0
        · subst hq
          simp [updAssoc, alookup, hk]
        · simp [updAssoc, alookup, hk, hq, ih, Ne.symm hq]

theorem map_fst_updAssoc {β : Type} (m : List (String × β)) (k : String)
    (upd : β → β) (ini : β) :
    (updAssoc m k upd ini).map Prod.fst =
      if k ∈ m.map Prod.fst then m.map Prod.fst
      else m.map Prod.fst ++ [k] := by
  induction m with
  | nil => simp [updAssoc]
  | cons hd tl ih =>
      obtain ⟨k0, v⟩ := hd
      by_cases hk : k0 = k
      · subst hk
        simp [updAssoc]
      · simp only [updAssoc, if_neg hk, List.map_cons, List.mem_cons]
        rw [ih]
        by_cases hmem : k ∈ tl.map Prod.fst
        · simp [hmem]
        · simp [hmem, Ne.symm hk]

theorem nodup_map_fst_updAssoc {β : Type} (m : List (String × β))
    (k : String) (upd : β → β) (ini : β)
    (h : (m.map Prod.fst).Nodup) :
    ((updAssoc m k upd ini).map Prod.fst).Nodup := by
  rw [map_fst_updAssoc]
  by_cases hmem : k ∈ m.map Prod.fst
  · simpa [hmem] using h
  · simp [hmem, List.nodup_append, h, List.disjoint_singleton]

theorem toFinset_map_fst_updAssoc {β : Type} (m : List (String × β))
    (k : String) (upd : β → β) (ini : β) :
    ((updAssoc m k upd ini).map Prod.fst).toFinset =
      insert k (m.map Prod.fst).toFinset := by
  rw [map_fst_updAssoc]
  by_cases hmem : k ∈ m.map Prod.fst
  · simp only [if_pos hmem]
    exact (Finset.insert_eq_self.mpr (List.mem_toFinset.mpr hmem)).symm
  · simp [hmem, Finset.union_comm, ← Finset.insert_eq]

theorem alookup_isSome_updAssoc {β : Type} (m : List (String × β))
    (k : String) (upd : β → β) (ini : β) (q : String)
    (h : (alookup m q).isSome) :
    (alookup (updAssoc m k upd ini) q).isSome := by
  rw [alookup_updAssoc]
  by_cases hq : q = k <;> simp [hq, h]

theorem alookup_updAssoc_self_isSome {β : Type} (m : List (String × β))
    (k : String) (upd : β → β) (ini : β) :
    (alookup (updAssoc m k upd ini) k).isSome = true := by
  rw [alookup_updAssoc]
  simp

theorem sum_map_updAssoc {β M : Type} [AddCommMonoid M] (g : β → M) (x : M)
    (m : List (String × β)) (k : String) (upd : β → β) (ini : β)
    (hupd : ∀ v, g (upd v) = g v + x) (hini : g ini = x) :
    ((updAssoc m k upd ini).map (fun p => g p.2)).sum =
      (m.map (fun p => g p.2)).sum + x := by
  induction m with
  | nil => simp [updAssoc, hini]
  | cons hd tl ih =>
      obtain ⟨k0, v⟩ := hd
      by_cases hk : k0 = k
      · subst hk
        have hu : updAssoc ((k0, v) :: tl) k0 upd ini = (k0, upd v) :: tl := by
          simp [updAssoc]
        rw [hu, List.map_cons, List.sum_cons, List.map_cons, List.sum_cons,
          hupd, add_right_comm]
      · have hu : updAssoc ((k0, v) :: tl) k upd ini =
            (k0, v) :: updAssoc tl k upd ini := by
          simp [updAssoc, hk]
        rw [hu, List.map_cons, List.sum_cons, List.map_cons, List.sum_cons,
          ih, add_assoc]

/-! ### Generic facts about folding the worker step over a run -/

section FoldKeys

variable {β : Type} (proj : AggState → List (String × β))
variable (keyOf : Transaction → String)

theorem toFinset_keys_foldl
    (hstep : ∀ st t, ∃ upd ini,
      proj (stepTransaction st t) = updAssoc (proj st) (keyOf t) upd ini) :
    ∀ (ts : List Transaction) (st : AggState),
    ((proj (ts.foldl stepTransaction st)).map Prod.fst).toFinset =
      ((proj st).map Prod.fst).toFinset ∪ (ts.map keyOf).toFinset := by
  intro ts
  induction ts with
  | nil => intro st; simp
  | cons t ts ih =>
      intro st
      obtain ⟨upd, ini, hu⟩ := hstep st t
      rw [List.foldl_cons, ih, hu, toFinset_map_fst_updAssoc, List.map_cons,
        List.toFinset_cons, Finset.insert_union, Finset.union_insert]

theorem nodup_keys_foldl
    (hstep : ∀ st t, ∃ upd ini,
      proj (stepTransaction st t) = updAssoc (proj st) (keyOf t) upd ini) :
    ∀ (ts : List Transaction) (st : AggState),
    ((proj st).map Prod.fst).Nodup →
    ((proj (ts.foldl stepTransaction st)).map Prod.fst).Nodup := by
  intro ts
  induction ts with
  | nil => intro st h; simpa using h
  | cons t ts ih =>
      intro st h
      obtain ⟨upd, ini, hu⟩ := hstep st t
      rw [List.foldl_cons]
      exact ih _ (hu ▸ nodup_map_fst_updAssoc _ _ _ _ h)

/-- Number of entries of a map after a run = number of distinct keys
contributed by the records. -/
theorem length_foldl_eq_dedup
    (hstep : ∀ st t, ∃ upd ini,
      proj (stepTransaction st t) = updAssoc (proj st) (keyOf t) upd ini)
    (hempty : proj emptyAgg = [])
    (ts : List Transaction) :
    (proj (ts.foldl stepTransaction emptyAgg)).length =
      ((ts.map keyOf).dedup).length := by
  have hnodup := nodup_keys_foldl proj keyOf hstep ts emptyAgg
    (by rw [hempty]; simp)
  have hfin := toFinset_keys_foldl proj keyOf hstep ts emptyAgg
  rw [hempty] at hfin
  simp only [List.map_nil, List.toFinset_nil, Finset.empty_union] at hfin
  calc (proj (ts.foldl stepTransaction emptyAgg)).length
      = ((proj (ts.foldl stepTransaction emptyAgg)).map Prod.fst).length := by
        rw [List.length_map]
    _ = ((proj (ts.foldl stepTransaction emptyAgg)).map Prod.fst).toFinset.card :=
        (List.toFinset_card_of_nodup hnodup).symm
    _ = ((ts.map keyOf).toFinset).card := by rw [hfin]
    _ = ((ts.map keyOf).dedup).length := List.card_toFinset _

end FoldKeys

/-! ### Claim C1: transaction counts sum to the number of valid rows -/

theorem sumTC_step (st : AggState) (t : Transaction) :
    ((stepTransaction st t).countryMap.map
        (fun p => p.2.transactionCount)).sum =
      (st.countryMap.map (fun p => p.2.transactionCount)).sum + 1 := by
  simp only [stepTransaction]
  refine sum_map_updAssoc (fun cr => cr.transactionCount) 1 st.countryMap
    (countryKey t) _ _ ?_ ?_
  · intro v
    rfl
  · rfl

theorem sumTC_foldl :
    ∀ (ts : List Transaction) (st : AggState),
    ((ts.foldl stepTransaction st).countryMap.map
        (fun p => p.2.transactionCount)).sum =
      (st.countryMap.map (fun p => p.2.transactionCount)).sum + ts.length := by
  intro ts
  induction ts with
  | nil => intro st; simp
  | cons t ts ih =>
      intro st
      rw [List.foldl_cons, ih, sumTC_step]
      push_cast [List.length_cons]
      ring

theorem parseTransaction_isOk (rec : List String) (hm : HeaderMap) :
    ∃ t, parseTransaction rec hm = Except.ok t :=
  ⟨_, rfl⟩

theorem length_filterMap_congr {α β γ : Type} (f : α → Option β)
    (g : α → Option γ) (h : ∀ a, (f a).isSome = (g a).isSome) :
    ∀ l : List α, (l.filterMap f).length = (l.filterMap g).length := by
  intro l
  induction l with
  | nil => rfl
  | cons a l ih =>
      cases hfa : f a with
      | none =>
          have hga : g a = none := by
            have := h a
            rw [hfa] at this
            simpa using this.symm
          rw [List.filterMap_cons_none hfa, List.filterMap_cons_none hga]
          exact ih
      | some b =>
          obtain ⟨c, hc⟩ : ∃ c, g a = some c := by
            have := h a
            rw [hfa] at this
            exact Option.isSome_iff_exists.mp (by simpa using this.symm)
          rw [List.filterMap_cons_some hfa, List.filterMap_cons_some hc]
          simp [ih]

theorem length_readCSVModel (headers : List String)
    (rows : List (Option (List String))) :
    (readCSVModel headers rows).length = (rows.filterMap id).length := by
  refine length_filterMap_congr _ _ (fun row => ?_) rows
  cases row <;> rfl

/-- C1: for every sequence of structurally valid input rows processed by
one ingestion run, the sum of `transaction_count` over all entries of the
published country-product revenue view equals the number of structurally
valid input rows (rows whose CSV read succeeded; each contributes exactly
1 to its country-product entry). -/
theorem countryRevenue_counts_sum_to_row_count
    (prev : DashboardData) (headers : List String)
    (rows : List (Option (List String))) (now dur : Int) (sel : Bool) :
    (((processDataset prev (.content headers rows) now dur sel).2.countryRevenues).map
        (fun cr => cr.transactionCount)).sum =
      ((rows.filterMap id).length : Int) := by
  simp only [processDataset]
  have hperm : List.Perm
      ((sortCountryRevenues
          (aggregate (readCSVModel headers rows)).countryMap).map
        (fun cr => cr.transactionCount))
      (((aggregate (readCSVModel headers rows)).countryMap.map Prod.snd).map
        (fun cr => cr.transactionCount)) :=
    (List.perm_insertionSort crGE _).map _
  rw [hperm.sum_eq, List.map_map]
  show ((aggregate (readCSVModel headers rows)).countryMap.map
      (fun p => p.2.transactionCount)).sum = _
  unfold aggregate
  rw [sumTC_foldl]
  simp [emptyAgg, length_readCSVModel]

/-! ### Claim C7: view lengths (truncation to 20 / 30, others untruncated) -/

theorem length_sortCountryRevenues (m : List (String × CountryRevenue)) :
    (sortCountryRevenues m).length = m.length := by
  simp [sortCountryRevenues, List.length_insertionSort]

theorem length_sortMonthlySales (m : List (String × MonthlySales)) :
    (sortMonthlySales m).length = m.length := by
  simp [sortMonthlySales, List.length_insertionSort]

theorem length_sortTopProducts (m : List (String × ProductFrequency))
    (limit : Nat) :
    (sortTopProducts m limit).length = min limit m.length := by
  simp only [sortTopProducts]
  split_ifs with h
  · simp [List.length_take, List.length_insertionSort]
  · simp only [List.length_insertionSort, List.length_map] at h ⊢
    omega

theorem length_sortTopRegions (m : List (String × RegionRevenue))
    (limit : Nat) :
    (sortTopRegions m limit).length = min limit m.length := by
  simp only [sortTopRegions]
  split_ifs with h
  · simp [List.length_take, List.length_insertionSort]
  · simp only [List.length_insertionSort, List.length_map] at h ⊢
    omega

/-- C7: after every completed run, the top-products view has
`min 20 (number of distinct product names)` entries, the top-regions view
has `min 30 (number of distinct regions)` entries, and the
country-product and monthly views keep one entry per distinct key
(never truncated). -/
theorem view_lengths (prev : DashboardData) (headers : List String)
    (rows : List (Option (List String))) (now dur : Int) (sel : Bool) :
    ((processDataset prev (.content headers rows) now dur sel).2.topProducts).length
        = min 20
            (((readCSVModel headers rows).map
              (fun t => t.productName)).dedup.length) ∧
    ((processDataset prev (.content headers rows) now dur sel).2.topRegions).length
        = min 30
            (((readCSVModel headers rows).map (fun t => t.region)).dedup.length) ∧
    ((processDataset prev (.content headers rows) now
        dur sel).2.countryRevenues).length
        = ((readCSVModel headers rows).map countryKey).dedup.length ∧
    ((processDataset prev (.content headers rows) now dur sel).2.monthlySales).length
        = ((readCSVModel headers rows).map
            (fun t => monthKey t.transactionDate)).dedup.length := by
  simp only [processDataset]
  have hP := length_foldl_eq_dedup (fun st => st.productMap)
    (fun t => t.productName) (fun st t => ⟨_, _, rfl⟩) rfl
    (readCSVModel headers rows)
  have hR := length_foldl_eq_dedup (fun st => st.regionMap)
    (fun t => t.region) (fun st t => ⟨_, _, rfl⟩) rfl
    (readCSVModel headers rows)
  have hC := length_foldl_eq_dedup (fun st => st.countryMap)
    countryKey (fun st t => ⟨_, _, rfl⟩) rfl (readCSVModel headers rows)
  have hM := length_foldl_eq_dedup (fun st => st.monthMap)
    (fun t => monthKey t.transactionDate) (fun st t => ⟨_, _, rfl⟩) rfl
    (readCSVModel headers rows)
  refine ⟨?_, ?_, ?_, ?_⟩
  · rw [length_sortTopProducts]
    exact congrArg (min 20) hP
  · rw [length_sortTopRegions]
    exact congrArg (min 30) hR
  · rw [length_sortCountryRevenues]
    exact hC
  · rw [length_sortMonthlySales]
    exact hM

/-! ### Claim C8: sortedness of the published sequences -/

theorem sorted_sortCountryRevenues (m : List (String × CountryRevenue)) :
    (sortCountryRevenues m).Chain' crGE :=
  (List.sorted_insertionSort crGE (m.map Prod.snd)).chain'

theorem sorted_sortMonthlySales (m : List (String × MonthlySales)) :
    (sortMonthlySales m).Chain' msGE :=
  (List.sorted_insertionSort msGE (m.map Prod.snd)).chain'

theorem sorted_sortTopRegions (m : List (String × RegionRevenue))
    (limit : Nat) :
    (sortTopRegions m limit).Chain' rrGE := by
  have hs : (List.insertionSort rrGE (m.map Prod.snd)).Pairwise rrGE :=
    List.sorted_insertionSort rrGE (m.map Prod.snd)
  simp only [sortTopRegions]
  split_ifs with h
  · exact (hs.sublist (List.take_sublist _ _)).chain'
  · exact hs.chain'

/-- C8: after every completed run the monthly-sales view is sorted by
year descending then total sales descending within a year, and the
country-product and top-regions views are sorted by total revenue
descending, for all adjacent pairs. -/
theorem views_sorted (prev : DashboardData) (headers : List String)
    (rows : List (Option (List String))) (now dur : Int) (sel : Bool) :
    List.Chain'
        (fun a b => b.year ≤ a.year ∧
          (a.year = b.year → b.totalSales ≤ a.totalSales))
        ((processDataset prev (.content headers rows) now dur sel).2.monthlySales) ∧
    List.Chain' (fun a b => b.totalRevenue ≤ a.totalRevenue)
        ((processDataset prev (.content headers rows) now
          dur sel).2.countryRevenues) ∧
    List.Chain' (fun a b => b.totalRevenue ≤ a.totalRevenue)
        ((processDataset prev (.content headers rows) now dur sel).2.topRegions) := by
  simp only [processDataset]
  refine ⟨?_, ?_, ?_⟩
  · refine (sorted_sortMonthlySales _).imp ?_
    intro a b hab
    rcases hab with h | ⟨h, hs⟩
    · exact ⟨le_of_lt h, fun heq => absurd h (by omega)⟩
    · exact ⟨le_of_eq h.symm, fun _ => hs⟩
  · exact sorted_sortCountryRevenues _
  · exact sorted_sortTopRegions _ _

/-! ### Claim C4: a header-read failure can publish an empty snapshot -/

/-- A nonempty previously published snapshot, used for C4. -/
def prevSnapshot : DashboardData :=
  { countryRevenues := [⟨"USA", "Laptop", 1500, 2⟩]
    topProducts := [⟨"Laptop", 2, 100⟩]
    monthlySales := [⟨"January", 2024, 1500, 3⟩]
    topRegions := [⟨"North America", 1500, 3⟩]
    lastUpdated := 5
    processingDuration := 1
    recordCount := 1 }

/-- C4 is a bug in the code: an open failure does return an error with
the published state untouched, and so does a header-read failure when
the error case of the `select` fires first — but when the done case
fires (both channels can be ready, and the choice is the scheduler's),
a header-read failure makes `ProcessDataset` return nil and publish a
snapshot built from the empty aggregation maps, clearing every
previously published view. Evaluated here at a concrete nonempty prior
snapshot under both schedules. -/
theorem header_failure_race :
    (processDataset prevSnapshot CSVSource.openFail 7 2 false
      = (Except.error "failed to open file", prevSnapshot)) ∧
    (processDataset prevSnapshot CSVSource.openFail 7 2 true
      = (Except.error "failed to open file", prevSnapshot)) ∧
    (processDataset prevSnapshot CSVSource.headerFail 7 2 false
      = (Except.error "error during processing: failed to read header",
          prevSnapshot)) ∧
    ((processDataset prevSnapshot CSVSource.headerFail 7 2 true).1
      = Except.ok ()) ∧
    ((processDataset prevSnapshot CSVSource.headerFail 7 2 true).2
      = { countryRevenues := [], topProducts := [], monthlySales := []
          topRegions := [], lastUpdated := 7, processingDuration := 2
          recordCount := 0 }) ∧
    ((processDataset prevSnapshot CSVSource.headerFail 7 2 true).2
      ≠ prevSnapshot) := by
  refine ⟨rfl, rfl, rfl, rfl, rfl, ?_⟩
  intro h
  exact absurd (congrArg DashboardData.recordCount h) (by decide)

/-! ### Claim C6: parsing is total and tolerant -/

theorem goTryFormats_eq_findSome (fs : List DateFormat) (s : String)
    (dflt : GoDate) :
    goTryFormats fs s dflt =
      (fs.findSome? (fun f => goTimeParse f s)).getD dflt := by
  induction fs with
  | nil => rfl
  | cons f fs ih =>
      cases h : goTimeParse f s with
      | none => simp [goTryFormats, List.findSome?_cons, h, ih]
      | some d => simp [goTryFormats, List.findSome?_cons, h]

/-- C6: `parseTransaction` always succeeds; a column missing from the
header map or an index past the end of the row leaves the field at its
zero value; numeric fields that fail to parse are set to zero; each date
is parsed by trying the five formats in order, the first success wins,
and if none match the date stays at its zero value. -/
theorem parseTransaction_tolerant (rec : List String) (hm : HeaderMap) :
    (∃ t, parseTransaction rec hm = Except.ok t) ∧
    (∀ name, alookup hm name = none → getCell hm rec name = none) ∧
    (∀ name i, alookup hm name = some i → rec.length ≤ i →
      getCell hm rec name = none) ∧
    (∀ t, parseTransaction rec hm = Except.ok t →
      (getCell hm rec "country" = none → t.country = "") ∧
      (getCell hm rec "product_name" = none → t.productName = "") ∧
      (getCell hm rec "region" = none → t.region = "") ∧
      (getCell hm rec "price" = none → t.price = 0) ∧
      (∀ s, getCell hm rec "price" = some s → goParseFloat s = none →
        t.price = 0) ∧
      (getCell hm rec "total_price" = none → t.totalPrice = 0) ∧
      (∀ s, getCell hm rec "total_price" = some s → goParseFloat s = none →
        t.totalPrice = 0) ∧
      (getCell hm rec "quantity" = none → t.quantity = 0) ∧
      (∀ s, getCell hm rec "quantity" = some s → goAtoi s = none →
        t.quantity = 0) ∧
      (getCell hm rec "stock_quantity" = none → t.stockQuantity = 0) ∧
      (∀ s, getCell hm rec "stock_quantity" = some s → goAtoi s = none →
        t.stockQuantity = 0) ∧
      (getCell hm rec "transaction_date" = none →
        t.transactionDate = zeroDate) ∧
      (∀ s, getCell hm rec "transaction_date" = some s →
        t.transactionDate =
          (goFormats.findSome? (fun f => goTimeParse f s)).getD zeroDate) ∧
      (getCell hm rec "added_date" = none → t.addedDate = zeroDate) ∧
      (∀ s, getCell hm rec "added_date" = some s →
        t.addedDate =
          (goFormats.findSome? (fun f => goTimeParse f s)).getD zeroDate)) := by
  refine ⟨⟨_, rfl⟩, ?_, ?_, ?_⟩
  · intro name h
    simp [getCell, h]
  · intro name i h hlen
    simp only [getCell, h]
    rw [List.get?_eq_none.mpr hlen]
    rfl
  · intro t ht
    have ht2 : parseTransaction rec hm = Except.ok t := ht
    simp only [parseTransaction, Except.ok.injEq] at ht2
    subst ht2
    refine ⟨?_, ?_, ?_, ?_, ?_, ?_, ?_, ?_, ?_, ?_, ?_, ?_, ?_, ?_, ?_⟩ <;>
      first
      | (intro h; simp [h])
      | (intro s hs hp; simp [hs, hp])
      | (intro s hs; simp [hs, goTryFormats_eq_findSome])

/-- Concrete record for the C6 witness: an unparseable price cell and an
unparseable date cell. -/
def recC6 : List String := ["abc", "xyz"]

/-- Header map for the C6 witness. -/
def hmC6 : HeaderMap := [("price", 0), ("transaction_date", 1)]

/-- Witness for C6: on a row whose price and date cells are unparseable,
parsing succeeds and both fields degrade to their zero values. -/
theorem parseTransaction_tolerant_witness :
    parseTransaction recC6 hmC6 = Except.ok {} ∧
    (Transaction.price {}) = 0 ∧ (Transaction.transactionDate {}) = zeroDate := by
  have h := parseTransaction_tolerant recC6 hmC6
  have hok : parseTransaction recC6 hmC6 = Except.ok {} := rfl
  refine ⟨hok, ?_, ?_⟩
  · exact (h.2.2.2 {} hok).2.2.2.2.1 "abc" rfl rfl
  · have hdate := (h.2.2.2 {} hok).2.2.2.2.2.2.2.2.2.2.2.2.1 "xyz" rfl
    rw [hdate]
    decide

/-! ### Claim C2 (corrected): purchase count counts records, not
quantities -/

theorem purchaseCount_foldl :
    ∀ (ts : List Transaction) (st : AggState) (p : String)
      (pf : ProductFrequency),
    alookup ((ts.foldl stepTransaction st).productMap) p = some pf →
    pf.purchaseCount =
      (match alookup st.productMap p with
       | some pf0 => pf0.purchaseCount
       | none => 0) +
        (ts.countP (fun t => t.productName == p) : Int) := by
  intro ts
  induction ts with
  | nil =>
      intro st p pf h
      simp only [List.foldl_nil] at h
      simp [h]
  | cons t ts ih =>
      intro st p pf h
      rw [List.foldl_cons] at h
      have := ih (stepTransaction st t) p pf h
      rw [this]
      have hstep : (stepTransaction st t).productMap =
          updAssoc st.productMap t.productName
            (fun pf =>
              { pf with
                purchaseCount := pf.purchaseCount + 1
                currentStock :=
                  if t.stockQuantity > 0 then t.stockQuantity
                  else pf.currentStock })
            { productName := t.productName, purchaseCount := 1
              currentStock := t.stockQuantity } := rfl
      rw [hstep, alookup_updAssoc]

      by_cases hp : p = t.productName
      · subst hp
        cases h0 : alookup st.productMap t.productName with
        | none =>
            simp [h0, List.countP_cons]
            ring
        | some pf0 =>
            simp [h0, List.countP_cons]
            ring
      · have hpred : (fun t2 : Transaction => t2.productName == p) t = false := by
          simp only [beq_eq_false_iff_ne, ne_eq]
          exact fun hc => hp hc.symm
        simp [hp, List.countP_cons, hpred]

/-- C2 (amended): in the product-frequency view the purchase count of a
product equals the number of ingested records with that product name —
the count is set to 1 on first sight and incremented by 1 on each
repeat; a record's quantity field does not enter the count. -/
theorem purchaseCount_counts_records (ts : List Transaction) (p : String)
    (pf : ProductFrequency)
    (h : alookup (aggregate ts).productMap p = some pf) :
    pf.purchaseCount = (ts.countP (fun t => t.productName == p) : Int) := by
  have := purchaseCount_foldl ts emptyAgg p pf h
  simpa [emptyAgg, alookup] using this

/-- Record used in the C2 counterexample and witness: one record of
product "p" with quantity 2. -/
def tC2 : Transaction := { productName := "p", quantity := 2 }

/-- Counterexample to C2 as stated: after ingesting a single record of
product "p" with quantity 2, the purchase count is 1 (the record count),
not 2 (the sum of quantities demanded by the claim). -/
theorem purchaseCount_ne_quantity_sum :
    (alookup (aggregate [tC2]).productMap "p").map
        (fun pf => pf.purchaseCount) = some 1 ∧
    (([tC2].filter (fun t => t.productName == "p")).map
        (fun t => t.quantity)).sum = 2 ∧
    (1 : Int) ≠ 2 := by
  refine ⟨rfl, rfl, by decide⟩

/-- Witness for the amended C2 at the concrete single-record run. -/
theorem purchaseCount_counts_records_witness :
    (ProductFrequency.purchaseCount ⟨"p", 1, 0⟩) =
      (([tC2].countP (fun t => t.productName == "p") : Nat) : Int) :=
  purchaseCount_counts_records [tC2] "p" ⟨"p", 1, 0⟩ rfl

/-! ### Claim C3 (corrected): stock keeps the last positive reading -/

/-- Stock readings of the records of product `p`, in processing order. -/
def stocksOf (ts : List Transaction) (p : String) : List Int :=
  (ts.filter (fun t => t.productName == p)).map (fun t => t.stockQuantity)

/-- The per-record stock update of `aggregateWorker`:
`if transaction.StockQuantity > 0 { product.CurrentStock = ... }`. -/
def stockUpd (a s : Int) : Int := if 0 < s then s else a

theorem getLastD_cons_int (x : Int) (xs : List Int) (d : Int) :
    ((x :: xs).getLast?).getD d = (xs.getLast?).getD x := by
  induction xs generalizing x d with
  | nil => rfl
  | cons y ys ih => rw [List.getLast?_cons_cons, ih y d, ih y x]

theorem foldl_stockUpd_eq (l : List Int) :
    ∀ a0 : Int, l.foldl stockUpd a0 =
      ((l.filter (fun s => 0 < s)).getLast?).getD a0 := by
  induction l with
  | nil => intro a0; rfl
  | cons s l ih =>
      intro a0
      rw [List.foldl_cons, ih]
      by_cases hs : 0 < s
      · have : (s :: l).filter (fun s => (0 < s : Bool)) =
            s :: l.filter (fun s => (0 < s : Bool)) := by
          simp [List.filter_cons, hs]
        rw [this, getLastD_cons_int]
        simp [stockUpd, hs]
      · have : (s :: l).filter (fun s => (0 < s : Bool)) =
            l.filter (fun s => (0 < s : Bool)) := by
          simp [List.filter_cons, hs]
        rw [this]
        simp [stockUpd, hs]

theorem currentStock_foldl :
    ∀ (ts : List Transaction) (st : AggState) (p : String)
      (pf : ProductFrequency),
    alookup ((ts.foldl stepTransaction st).productMap) p = some pf →
    (∃ pf0, alookup st.productMap p = some pf0 ∧
       pf.currentStock = (stocksOf ts p).foldl stockUpd pf0.currentStock) ∨
    (alookup st.productMap p = none ∧
       ∃ s0 rest, stocksOf ts p = s0 :: rest ∧
         pf.currentStock = rest.foldl stockUpd s0) := by
  intro ts
  induction ts with
  | nil =>
      intro st p pf h
      simp only [List.foldl_nil] at h
      exact Or.inl ⟨pf, h, rfl⟩
  | cons t ts ih =>
      intro st p pf h
      rw [List.foldl_cons] at h
      have hstep : (stepTransaction st t).productMap =
          updAssoc st.productMap t.productName
            (fun pf =>
              { pf with
                purchaseCount := pf.purchaseCount + 1
                currentStock :=
                  if t.stockQuantity > 0 then t.stockQuantity
                  else pf.currentStock })
            { productName := t.productName, purchaseCount := 1
              currentStock := t.stockQuantity } := rfl
      by_cases hp : p = t.productName
      · subst hp
        have hfil : stocksOf (t :: ts) t.productName
            = t.stockQuantity :: stocksOf ts t.productName := by
          simp [stocksOf, List.filter_cons]
        rcases ih (stepTransaction st t) t.productName pf h with
          ⟨pf1, hpf1, hstock⟩ | ⟨hnone, s0, rest, hsr, hst2⟩
        · rw [hstep, alookup_updAssoc] at hpf1
          simp only [eq_self_iff_true, if_true] at hpf1
          cases h0 : alookup st.productMap t.productName with
          | none =>
              rw [h0] at hpf1
              obtain rfl := Option.some.inj hpf1
              refine Or.inr
                ⟨rfl, t.stockQuantity, stocksOf ts t.productName, hfil, ?_⟩
              exact hstock
          | some pf0 =>
              rw [h0] at hpf1
              obtain rfl := Option.some.inj hpf1
              refine Or.inl ⟨pf0, rfl, ?_⟩
              rw [hfil, List.foldl_cons]
              exact hstock
        · rw [hstep, alookup_updAssoc] at hnone
          simp at hnone
      · have hfil : stocksOf (t :: ts) p = stocksOf ts p := by
          have : (fun t2 : Transaction => t2.productName == p) t = false := by
            simp only [beq_eq_false_iff_ne, ne_eq]
            exact fun hc => hp hc.symm
          simp [stocksOf, List.filter_cons, this]
        have hlook : alookup (stepTransaction st t).productMap p =
            alookup st.productMap p := by
          rw [hstep, alookup_updAssoc, if_neg hp]
        rcases ih (stepTransaction st t) p pf h with
          ⟨pf1, hpf1, hstock⟩ | ⟨hnone, s0, rest, hsr, hstock⟩
        · exact Or.inl ⟨pf1, hlook ▸ hpf1, hfil ▸ hstock⟩
        · exact Or.inr ⟨hlook ▸ hnone, s0, rest, hfil ▸ hsr, hstock⟩

/-- C3 (amended): the final `current_stock` of a product equals the stock
value of the last record for that product whose stock value was
*positive*, falling back to the first record's stock value when no
positive reading exists; zero *and negative* readings never overwrite a
previously recorded value. -/
theorem currentStock_last_positive (ts : List Transaction) (p : String)
    (pf : ProductFrequency)
    (h : alookup (aggregate ts).productMap p = some pf) :
    pf.currentStock =
      (((stocksOf ts p).filter (fun s => 0 < s)).getLast?).getD
        (((stocksOf ts p).head?).getD 0) := by
  rcases currentStock_foldl ts emptyAgg p pf h with
    ⟨pf0, hpf0, _⟩ | ⟨_, s0, rest, hsr, hstock⟩
  · simp [emptyAgg, alookup] at hpf0
  · rw [hstock, foldl_stockUpd_eq, hsr]
    by_cases hs : 0 < s0
    · have : (s0 :: rest).filter (fun s => (0 < s : Bool)) =
          s0 :: rest.filter (fun s => (0 < s : Bool)) := by
        simp [List.filter_cons, hs]
      rw [this, getLastD_cons_int]
    · have : (s0 :: rest).filter (fun s => (0 < s : Bool)) =
          rest.filter (fun s => (0 < s : Bool)) := by
        simp [List.filter_cons, hs]
      rw [this]
      simp

/-- Records used for the C3 counterexample: stock 100 then stock -5
(a negative stock is reachable: `strconv.Atoi("-5")` succeeds). -/
def tC3a : Transaction := { productName := "q", stockQuantity := 100 }

/-- Second record for the C3 counterexample. -/
def tC3b : Transaction := { productName := "q", stockQuantity := -5 }

/-- The claim's own merge rule, stated from the spec's words: the stock
of the last record whose stock value was non-zero, falling back to the
first record's stock. Used only to compare with the code's behaviour. -/
def specC3Stock (stocks : List Int) : Int :=
  ((stocks.filter (fun s => s ≠ 0)).getLast?).getD ((stocks.head?).getD 0)

/-- Counterexample to C3 as stated: for stock readings 100 then -5, the
last non-zero reading is -5, but the code keeps 100 (it only overwrites
on strictly positive readings, not non-zero ones). -/
theorem currentStock_not_last_nonzero :
    (alookup (aggregate [tC3a, tC3b]).productMap "q").map
        (fun pf => pf.currentStock) = some 100 ∧
    specC3Stock (stocksOf [tC3a, tC3b] "q") = -5 ∧
    (100 : Int) ≠ -5 := by
  refine ⟨rfl, by decide, by decide⟩

/-- First record of the C3 witness run (stock 100). -/
def tC3w1 : Transaction := { productName := "q", stockQuantity := 100 }

/-- Second record of the C3 witness run (stock 0). -/
def tC3w2 : Transaction := { productName := "q", stockQuantity := 0 }

/-- Third record of the C3 witness run (stock 150). -/
def tC3w3 : Transaction := { productName := "q", stockQuantity := 150 }

/-- Witness for the amended C3 on the spec's concrete scenario: stock
readings 100 then 0 then 150 yield final current_stock 150. -/
theorem currentStock_last_positive_witness :
    (ProductFrequency.currentStock ⟨"q", 3, 150⟩) =
      (((stocksOf [tC3w1, tC3w2, tC3w3] "q").filter
          (fun s => 0 < s)).getLast?).getD
        (((stocksOf [tC3w1, tC3w2, tC3w3] "q").head?).getD 0) :=
  currentStock_last_positive [tC3w1, tC3w2, tC3w3] "q" ⟨"q", 3, 150⟩ rfl

/-! ### Claim C5 (corrected): the country-product key can collide -/

/-- C5 (amended): two ingested records update the same country-product
entry iff their keys `country ++ "-" ++ productName` coincide. Records
with equal country and equal product name always share an entry, but the
converse fails: distinct (country, productName) pairs whose
concatenations coincide are merged into one entry. -/
theorem countryEntry_shared_iff_key_eq (t1 t2 : Transaction) :
    ((aggregate [t1, t2]).countryMap.length = 1 ↔
      countryKey t1 = countryKey t2) ∧
    (t1.country = t2.country ∧ t1.productName = t2.productName →
      countryKey t1 = countryKey t2) := by
  constructor
  · have hagg : (aggregate [t1, t2]).countryMap =
        updAssoc [(countryKey t1,
          { country := t1.country, productName := t1.productName
            totalRevenue := t1.totalPrice, transactionCount := 1 })]
          (countryKey t2)
          (fun cr =>
            { cr with
              totalRevenue := cr.totalRevenue + t2.totalPrice
              transactionCount := cr.transactionCount + 1 })
          { country := t2.country, productName := t2.productName
            totalRevenue := t2.totalPrice, transactionCount := 1 } := rfl
    rw [hagg]
    by_cases h : countryKey t1 = countryKey t2
    · simp [updAssoc, h]
    · simp [updAssoc, h]
  · intro ⟨h1, h2⟩
    simp [countryKey, h1, h2]

/-- First record of the C5 counterexample: country "a-b", product "c". -/
def tC5a : Transaction := { country := "a-b", productName := "c" }

/-- Second record of the C5 counterexample: country "a", product "b-c". -/
def tC5b : Transaction := { country := "a", productName := "b-c" }

/-- Counterexample to C5 as stated: the records (country "a-b",
product "c") and (country "a", product "b-c") form distinct
(country, product) pairs, yet both yield the key "a-b-c" and are merged
into a single country-product entry (with its transaction count at 2). -/
theorem distinct_pairs_merged :
    (aggregate [tC5a, tC5b]).countryMap.length = 1 ∧
    (alookup (aggregate [tC5a, tC5b]).countryMap "a-b-c").map
        (fun cr => cr.transactionCount) = some 2 ∧
    ¬(tC5a.country = tC5b.country ∧ tC5a.productName = tC5b.productName) := by
  refine ⟨rfl, rfl, ?_⟩
  intro ⟨h1, _⟩
  exact absurd h1 (by decide)

/-! ### Claim C9 (corrected): the zero-revenue rule is about total_price,
not price -/

theorem totalPrice_zero_when_unparseable (rec : List String)
    (hm : HeaderMap) (t : Transaction)
    (ht : parseTransaction rec hm = Except.ok t)
    (hfail : getCell hm rec "total_price" = none ∨
      ∃ s, getCell hm rec "total_price" = some s ∧ goParseFloat s = none) :
    t.totalPrice = 0 := by
  have ht2 : parseTransaction rec hm = Except.ok t := ht
  simp only [parseTransaction, Except.ok.injEq] at ht2
  subst ht2
  rcases hfail with hnone | ⟨s, hs, hp⟩
  · simp [hnone]
  · simp [hs, hp]

/-- C9 (amended): a structurally valid row whose *total_price* field is
missing or fails numeric parsing contributes 0 to the total_revenue of
its country-product entry while still contributing 1 to that entry's
transaction_count. (The `price` column does not enter the revenue sum.) -/
theorem unparseable_total_price_contributes_zero (rec : List String)
    (hm : HeaderMap) (t : Transaction)
    (ht : parseTransaction rec hm = Except.ok t)
    (hfail : getCell hm rec "total_price" = none ∨
      ∃ s, getCell hm rec "total_price" = some s ∧ goParseFloat s = none) :
    t.totalPrice = 0 ∧
    ∀ st : AggState,
      (alookup (stepTransaction st t).countryMap (countryKey t)).map
          (fun cr => cr.totalRevenue)
        = some (((alookup st.countryMap (countryKey t)).map
            (fun cr => cr.totalRevenue)).getD 0) ∧
      (alookup (stepTransaction st t).countryMap (countryKey t)).map
          (fun cr => cr.transactionCount)
        = some (((alookup st.countryMap (countryKey t)).map
            (fun cr => cr.transactionCount)).getD 0 + 1) := by
  have htp : t.totalPrice = 0 := totalPrice_zero_when_unparseable rec hm t ht hfail
  refine ⟨htp, fun st => ?_⟩
  have hstep : (stepTransaction st t).countryMap =
      updAssoc st.countryMap (countryKey t)
        (fun cr =>
          { cr with
            totalRevenue := cr.totalRevenue + t.totalPrice
            transactionCount := cr.transactionCount + 1 })
        { country := t.country, productName := t.productName
          totalRevenue := t.totalPrice, transactionCount := 1 } := rfl
  rw [hstep, alookup_updAssoc]
  cases h0 : alookup st.countryMap (countryKey t) with
  | none => simp [htp]
  | some cr0 => simp [htp]

/-- Record and header map for the C9 counterexample: the `price` cell is
unparseable but `total_price` parses to 5. -/
def recC9 : List String := ["abc", "5"]

/-- Header map of the C9 counterexample. -/
def hmC9 : HeaderMap := [("price", 0), ("total_price", 1)]

/-- Counterexample to C9 as stated: a structurally valid row whose
`price` field fails numeric parsing still contributes its parsed
total_price (5, not 0) to the revenue of its entry, while contributing 1
to the count. -/
theorem unparseable_price_still_contributes_revenue :
    goParseFloat "abc" = none ∧
    (parseTransaction recC9 hmC9).toOption.map
        (fun t => (aggregate [t]).countryMap.map
          (fun p => (p.2.totalRevenue, p.2.transactionCount)))
      = some [((5 : ℚ), (1 : Int))] ∧
    (5 : ℚ) ≠ 0 := by
  refine ⟨by decide, rfl, by decide⟩

/-- The parsed transaction of the C9 witness row (all other fields at
their zero values, total_price unparseable hence 0). -/
def tC9 : Transaction := {}

/-- Witness for the amended C9 at a concrete row whose total_price cell
is unparseable, folded into the empty aggregation state. -/
theorem unparseable_total_price_contributes_zero_witness :
    (Transaction.totalPrice {}) = 0 ∧
    (alookup (stepTransaction emptyAgg tC9).countryMap (countryKey tC9)).map
        (fun cr => cr.totalRevenue)
      = some (((alookup emptyAgg.countryMap (countryKey tC9)).map
          (fun cr => cr.totalRevenue)).getD 0) ∧
    (alookup (stepTransaction emptyAgg tC9).countryMap (countryKey tC9)).map
        (fun cr => cr.transactionCount)
      = some (((alookup emptyAgg.countryMap (countryKey tC9)).map
          (fun cr => cr.transactionCount)).getD 0 + 1) := by
  have h := unparseable_total_price_contributes_zero ["abc"]
    [("total_price", 0)] tC9 rfl (Or.inr ⟨"abc", rfl, by decide⟩)
  exact ⟨h.1, (h.2 emptyAgg).1, (h.2 emptyAgg).2⟩

/-! ### Claim C10: zero-date records share the "1-01" monthly bucket -/

theorem sumSales_step (st : AggState) (t : Transaction) :
    ((stepTransaction st t).monthMap.map (fun p => p.2.totalSales)).sum =
      (st.monthMap.map (fun p => p.2.totalSales)).sum + t.totalPrice := by
  simp only [stepTransaction]
  refine sum_map_updAssoc (fun ms => ms.totalSales) t.totalPrice st.monthMap
    (monthKey t.transactionDate) _ _ ?_ ?_
  · intro v
    rfl
  · rfl

theorem sumVolume_step (st : AggState) (t : Transaction) :
    ((stepTransaction st t).monthMap.map (fun p => p.2.salesVolume)).sum =
      (st.monthMap.map (fun p => p.2.salesVolume)).sum + t.quantity := by
  simp only [stepTransaction]
  refine sum_map_updAssoc (fun ms => ms.salesVolume) t.quantity st.monthMap
    (monthKey t.transactionDate) _ _ ?_ ?_
  · intro v
    rfl
  · rfl

theorem sumSales_foldl :
    ∀ (ts : List Transaction) (st : AggState),
    ((ts.foldl stepTransaction st).monthMap.map
        (fun p => p.2.totalSales)).sum =
      (st.monthMap.map (fun p => p.2.totalSales)).sum +
        (ts.map (fun t => t.totalPrice)).sum := by
  intro ts
  induction ts with
  | nil => intro st; simp
  | cons t ts ih =>
      intro st
      rw [List.foldl_cons, ih, sumSales_step, List.map_cons, List.sum_cons]
      ring

theorem sumVolume_foldl :
    ∀ (ts : List Transaction) (st : AggState),
    ((ts.foldl stepTransaction st).monthMap.map
        (fun p => p.2.salesVolume)).sum =
      (st.monthMap.map (fun p => p.2.salesVolume)).sum +
        (ts.map (fun t => t.quantity)).sum := by
  intro ts
  induction ts with
  | nil => intro st; simp
  | cons t ts ih =>
      intro st
      rw [List.foldl_cons, ih, sumVolume_step, List.map_cons, List.sum_cons]
      ring

theorem alookup_monthMap_isSome_preserved :
    ∀ (ts : List Transaction) (st : AggState) (k : String),
    (alookup st.monthMap k).isSome = true →
    (alookup ((ts.foldl stepTransaction st).monthMap) k).isSome = true := by
  intro ts
  induction ts with
  | nil => intro st k h; simpa using h
  | cons t ts ih =>
      intro st k h
      rw [List.foldl_cons]
      refine ih _ k ?_
      have hstep : (stepTransaction st t).monthMap =
          updAssoc st.monthMap (monthKey t.transactionDate)
            (fun ms =>
              { ms with
                totalSales := ms.totalSales + t.totalPrice
                salesVolume := ms.salesVolume + t.quantity })
            { month := monthName t.transactionDate.month
              year := t.transactionDate.year
              totalSales := t.totalPrice, salesVolume := t.quantity } := rfl
      rw [hstep]
      exact alookup_isSome_updAssoc _ _ _ _ _ h

theorem alookup_monthKey_isSome_foldl :
    ∀ (ts : List Transaction) (st : AggState) (t : Transaction),
    t ∈ ts →
    (alookup ((ts.foldl stepTransaction st).monthMap)
      (monthKey t.transactionDate)).isSome = true := by
  intro ts
  induction ts with
  | nil => intro st t h; cases h
  | cons t0 ts ih =>
      intro st t h
      rw [List.foldl_cons]
      rcases List.mem_cons.mp h with rfl | hmem
      · refine alookup_monthMap_isSome_preserved ts _ _ ?_
        have hstep : (stepTransaction st t).monthMap =
            updAssoc st.monthMap (monthKey t.transactionDate)
              (fun ms =>
                { ms with
                  totalSales := ms.totalSales + t.totalPrice
                  salesVolume := ms.salesVolume + t.quantity })
              { month := monthName t.transactionDate.month
                year := t.transactionDate.year
                totalSales := t.totalPrice, salesVolume := t.quantity } := rfl
        rw [hstep]
        exact alookup_updAssoc_self_isSome _ _ _ _
      · exact ih _ t hmem

/-- C10: no record is excluded from the monthly-sales view (its total
sales and volume are the full sums over all records), and every record
whose transaction_date stayed at the zero value is accumulated under the
single bucket keyed "1-01" — the key derived from the zero date, whose
year is 1 and whose month name is "January". -/
theorem zero_date_records_bucketed (ts : List Transaction) :
    ((sortMonthlySales (aggregate ts).monthMap).map
        (fun ms => ms.totalSales)).sum =
      (ts.map (fun t => t.totalPrice)).sum ∧
    ((sortMonthlySales (aggregate ts).monthMap).map
        (fun ms => ms.salesVolume)).sum =
      (ts.map (fun t => t.quantity)).sum ∧
    monthKey zeroDate = "1-01" ∧
    monthName zeroDate.month = "January" ∧
    zeroDate.year = 1 ∧
    (∀ t ∈ ts, t.transactionDate = zeroDate →
      (alookup (aggregate ts).monthMap "1-01").isSome = true) := by
  have hpermS : List.Perm
      ((sortMonthlySales (aggregate ts).monthMap).map
        (fun ms => ms.totalSales))
      (((aggregate ts).monthMap.map Prod.snd).map (fun ms => ms.totalSales)) :=
    (List.perm_insertionSort msGE _).map _
  have hpermV : List.Perm
      ((sortMonthlySales (aggregate ts).monthMap).map
        (fun ms => ms.salesVolume))
      (((aggregate ts).monthMap.map Prod.snd).map (fun ms => ms.salesVolume)) :=
    (List.perm_insertionSort msGE _).map _
  refine ⟨?_, ?_, rfl, rfl, rfl, ?_⟩
  · rw [hpermS.sum_eq, List.map_map]
    show ((aggregate ts).monthMap.map (fun p => p.2.totalSales)).sum = _
    unfold aggregate
    rw [sumSales_foldl]
    simp [emptyAgg]
  · rw [hpermV.sum_eq, List.map_map]
    show ((aggregate ts).monthMap.map (fun p => p.2.salesVolume)).sum = _
    unfold aggregate
    rw [sumVolume_foldl]
    simp [emptyAgg]
  · intro t hmem hdate
    have := alookup_monthKey_isSome_foldl ts emptyAgg t hmem
    rw [hdate] at this
    exact this

/-- Record of the C10 witness run: zero transaction date (as left by a
failed date parse), total price 3, quantity 2. -/
def tC10 : Transaction := { totalPrice := 3, quantity := 2 }

/-- Witness for C10 at a concrete one-record run whose date stayed at
the zero value. -/
theorem zero_date_records_bucketed_witness :
    ((sortMonthlySales (aggregate [tC10]).monthMap).map
        (fun ms => ms.totalSales)).sum =
      ([tC10].map (fun t => t.totalPrice)).sum ∧
    (alookup (aggregate [tC10]).monthMap "1-01").isSome = true := by
  have h := zero_date_records_bucketed [tC10]
  exact ⟨h.1, h.2.2.2.2.2 tC10 (List.mem_singleton.mpr rfl) rfl⟩

end ABT
